import Mathlib

/-!
Verification of the AI sales-assistant message pipeline (`AIEngineService`).

The development shallowly embeds the service: pure helpers (regex-style
query classification, keyword intent inference, sentiment scoring, product
ranking, display formatting) are translated directly from the source;
stateful collaborators (cache, catalog store, completion provider, coupon
issuer) are modelled as an explicit environment of oracles, with fallible
calls returning `Except Err`.  JS numbers appearing in the pipeline are
modelled as rationals (only orderings and exact small constants matter),
and JS truthiness of optional values is modelled explicitly on `Option`.
-/

abbrev Err := String

/-! ## Character and string utilities (JS regex / string semantics) -/

/-- JS `\w` word characters: `[A-Za-z0-9_]`. -/
def isWordChar (c : Char) : Bool := c.isAlphanum || c == '_'

/-- Charwise lower-casing (kernel-computable model of JS `toLowerCase` /
the `/i` flag on ASCII text). -/
def toLowerChars (s : String) : List Char := s.data.map Char.toLower

/-- JS `\s` whitespace characters (ASCII part). -/
def isSpaceChar (c : Char) : Bool :=
  c == ' ' || c == '\t' || c == '\n' || c == '\r' || c == '\x0b' || c == '\x0c'

/-- Drop a literal pattern from the front of a character list (exact match). -/
def dropLit : List Char → List Char → Option (List Char)
  | [], cs => some cs
  | _ :: _, [] => none
  | a :: as, c :: cs => if a == c then dropLit as cs else none

/-- Drop a literal pattern from the front, comparing case-insensitively
(the pattern is given in lower case, the text may be mixed case). -/
def dropLitCI : List Char → List Char → Option (List Char)
  | [], cs => some cs
  | _ :: _, [] => none
  | a :: as, c :: cs => if a == c.toLower then dropLitCI as cs else none

/-- Substring test on character lists (model of JS `String.includes` /
an unanchored regex literal). -/
def listContains (pat : List Char) : List Char → Bool
  | [] => pat.isEmpty
  | c :: rest => pat.isPrefixOf (c :: rest) || listContains pat rest

/-- `pat` occurs in `s` (both taken literally). -/
def containsSub (pat s : String) : Bool := listContains pat.data s.data

/-- Case-insensitive substring test: the pattern (lower case) occurs in the
lower-cased text; models `/pat/i.test(s)` for a literal pattern. -/
def containsCI (pat s : String) : Bool := listContains pat.data (toLowerChars s)

/-! ### Word-boundary sequence patterns

All the query-classification regexes in `enhanceResponse` /
`getProductKnowledge` have the shape
`\b(alt|…)\s+(alt|…)\s+…(alt|…)\b` with the `/i` flag: an ordered list of
alternation groups separated by runs of whitespace, with a word boundary
before the first and after the last group.  `matchSeqFrom` matches such a
pattern at the head of a character list; `scanSeq` scans all start
positions tracking the word-boundary condition (previous character absent
or not a word character). -/

/-- Word boundary after the final alternate: end of input or a non-word
character. -/
def boundaryEnd : List Char → Bool
  | [] => true
  | c :: _ => !isWordChar c

def matchSeqFrom : List (List String) → List Char → Bool
  | [], cs => boundaryEnd cs
  | g :: rest, cs =>
    g.any (fun alt =>
      match dropLit alt.data cs with
      | none => false
      | some cs2 =>
        match rest with
        | [] => boundaryEnd cs2
        | _ :: _ =>
          match cs2 with
          | [] => false
          | c :: cs3 => isSpaceChar c && matchSeqFrom rest (cs3.dropWhile isSpaceChar))

def scanSeq (groups : List (List String)) : Bool → List Char → Bool
  | bOK, cs =>
    (bOK && matchSeqFrom groups cs) ||
      match cs with
      | [] => false
      | c :: rest => scanSeq groups (!isWordChar c) rest

/-- `/\b(g₁)\s+(g₂)\s+…\b/i.test(s)` for groups of literal alternates
(given in lower case). -/
def testSeq (groups : List (List String)) (s : String) : Bool :=
  scanSeq groups true (toLowerChars s)

/-! ## Query-shape patterns from `enhanceResponse` and `getProductKnowledge` -/

/-- `/\b(how many|total|count)\s+(products?|items?|laptops?|computers?)\b/i` -/
def inventoryPat : List (List String) :=
  [["how many", "total", "count"],
   ["products", "product", "items", "item", "laptops", "laptop", "computers", "computer"]]

/-- `/\b(show|display|see|list)\s+(all|entire|complete|every)\s+(products?|items?|laptops?|computers?|inventory|catalog)\b/i` -/
def showAllPat : List (List String) :=
  [["show", "display", "see", "list"],
   ["all", "entire", "complete", "every"],
   ["products", "product", "items", "item", "laptops", "laptop",
    "computers", "computer", "inventory", "catalog"]]

/-- `/\b(show|suggest|recommend|find|looking for|need|want|buy)\s+(products?|laptop|computer|gaming|design)\b/i` -/
def productRequestPat : List (List String) :=
  [["show", "suggest", "recommend", "find", "looking for", "need", "want", "buy"],
   ["products", "product", "laptop", "computer", "gaming", "design"]]

/-- `/\b(asus|msi|lenovo|hp|katana|strix|vivobook|expertbook|zenbook)\b/i` -/
def specificProductPat : List (List String) :=
  [["asus", "msi", "lenovo", "hp", "katana", "strix", "vivobook", "expertbook", "zenbook"]]

/-- The three query tests guarding the inventory short-circuit, the
"show all" cap and the specific-brand cap in `enhanceResponse`. -/
def isInventoryQuery (query : String) : Bool := testSeq inventoryPat query

def isShowAllQuery (query : String) : Bool := testSeq showAllPat query

def isProductRequest (query : String) : Bool := testSeq productRequestPat query

def isSpecificProductQuery (query : String) : Bool := testSeq specificProductPat query

/-- The "all inventory" test in `getProductKnowledge`:
`/\b(all|every|entire|complete|whole)\s+(products?|inventory|catalog|items?|laptops?|computers?)\b/i`
`|| /\b(show|give|list)\s+(me\s+)?(all|every|everything)\b/i || /\binventory\b/i`.
The optional `(me\s+)?` group is expanded into the union of the two
sequence patterns with and without `me`. -/
def isRequestingAllProducts (query : String) : Bool :=
  testSeq [["all", "every", "entire", "complete", "whole"],
           ["products", "product", "inventory", "catalog", "items", "item",
            "laptops", "laptop", "computers", "computer"]] query ||
  (testSeq [["show", "give", "list"], ["all", "every", "everything"]] query ||
   testSeq [["show", "give", "list"], ["me"], ["all", "every", "everything"]] query) ||
  testSeq [["inventory"]] query

/-! ## Classifier fallback (`inferIntentFromKeywords`, `calculateSimpleSentiment`) -/

/-- `^(hi|hello|hey|good morning|good afternoon|good evening)` — anchored
at the start of the (lower-cased) message. -/
def greetingPat (m : List Char) : Bool :=
  ["hi", "hello", "hey", "good morning", "good afternoon", "good evening"].any
    (fun p => p.data.isPrefixOf m)

/-- An unanchored alternation of literals, e.g. `(looking for|need|…)`. -/
def containsAnyPat (pats : List String) (m : List Char) : Bool :=
  pats.any (fun p => listContains p.data m)

/-- The per-intent patterns of `inferIntentFromKeywords`, in source order
(JS object-entry insertion order). -/
def intentPatternTable : List (String × (List Char → Bool)) :=
  [("greeting", greetingPat),
   ("product_inquiry", containsAnyPat
      ["looking for", "need", "want", "show me", "find", "search", "recommend", "suggest"]),
   ("price_question", containsAnyPat
      ["price", "cost", "how much", "expensive", "cheap", "afford", "budget"]),
   ("comparison", containsAnyPat
      ["compare", "versus", "vs", "difference", "better", "best", "which"]),
   ("purchase_intent", containsAnyPat
      ["buy", "purchase", "order", "checkout", "add to cart"]),
   ("complaint", containsAnyPat
      ["problem", "issue", "wrong", "broken", "defective", "return", "complaint"]),
   ("goodbye", containsAnyPat
      ["bye", "goodbye", "thanks", "thank you", "that\x27s all"])]

/-- Fallback intent inference: test the lower-cased message against the
patterns in fixed order, first match wins, `"unknown"` otherwise. -/
def inferIntentFromKeywords (message : String) : String :=
  let lowerMessage := toLowerChars message
  match intentPatternTable.find? (fun e => e.2 lowerMessage) with
  | some e => e.1
  | none => "unknown"

/-- JS `message.toLowerCase().split(/\s+/)`: split on maximal whitespace
runs, keeping the empty fragments a leading/trailing separator produces
(so the result is never empty). -/
def splitWSCore : List Char → List String
  | [] => [""]
  | c :: rest =>
    if isSpaceChar c then
      match rest with
      | d :: _ => if isSpaceChar d then splitWSCore rest else "" :: splitWSCore rest
      | [] => "" :: splitWSCore rest
    else
      match splitWSCore rest with
      | s :: tail => String.mk (c :: s.data) :: tail
      | [] => [String.mk [c]]

/-- `Math.min` / `Math.max` on the rationals modelling JS numbers
(spelled out with `if` so that concrete values kernel-evaluate). -/
def jsMin (a b : ℚ) : ℚ := if a ≤ b then a else b

def jsMax (a b : ℚ) : ℚ := if a ≤ b then b else a

def positiveWords : List String :=
  ["good", "great", "excellent", "love", "like", "amazing", "perfect"]

def negativeWords : List String :=
  ["bad", "terrible", "hate", "awful", "disappointed", "wrong", "broken"]

/-- Fallback sentiment: ±1 per positive/negative word, normalised by the
token count, scaled by 10 and clamped to `[-1, 1]`. -/
def calculateSimpleSentiment (message : String) : ℚ :=
  let words := splitWSCore (toLowerChars message)
  let score : ℚ := words.foldl
    (fun s word =>
      let s1 := if positiveWords.contains word then s + 1 else s
      if negativeWords.contains word then s1 - 1 else s1) 0
  jsMax (-1) (jsMin 1 (score / (words.length : ℚ) * 10))

/-! ## Data model -/

/-- A chat message (`ChatMessage`): `type` is `"user"` or `"bot"`. -/
structure ChatMessage where
  type : String
  content : String
deriving DecidableEq, Repr

/-- Product category entry; only the name is read by this service. -/
structure ProductCategory where
  name : String
deriving DecidableEq, Repr

/-- Catalog product record, with the fields the AI engine reads.  Optional
fields model JS `undefined`; numeric fields are rationals. -/
structure Product where
  id : String
  name : String
  description : Option String := none
  shortDescription : Option String := none
  price : ℚ
  regularPrice : Option ℚ := none
  salePrice : Option ℚ := none
  currency : Option String := none
  categories : List ProductCategory := []
  averageRating : Option ℚ := none
  reviewCount : Option Nat := none
  stockStatus : String
  permalink : String := ""
  images : List String := []
deriving DecidableEq, Repr

/-! ## Product ranking comparator (`enhanceResponse`, step "Priority") -/

/-- The sort comparator of `enhanceResponse`: in-stock first, then higher
average rating, then higher review count (`||`-defaults of 0 for missing
rating/review count; the source binds `ratingA`/`ratingB`, inlined here). -/
def compareProducts (a b : Product) : ℚ :=
  if a.stockStatus = "instock" ∧ b.stockStatus ≠ "instock" then -1
  else if b.stockStatus = "instock" ∧ a.stockStatus ≠ "instock" then 1
  else if a.averageRating.getD 0 ≠ b.averageRating.getD 0 then
    b.averageRating.getD 0 - a.averageRating.getD 0
  else ((b.reviewCount.getD 0 : ℚ)) - ((a.reviewCount.getD 0 : ℚ))

/-- `a` sorts no later than `b` under the comparator. -/
def prodLe (a b : Product) : Prop := compareProducts a b ≤ 0

instance : DecidableRel prodLe :=
  fun a b => inferInstanceAs (Decidable (compareProducts a b ≤ 0))

/-- Characterisation of the comparator as a lexicographic order on
(stock status, rating descending, review count descending). -/
theorem prodLe_iff (a b : Product) :
    prodLe a b ↔
      (a.stockStatus = "instock" ∧ b.stockStatus ≠ "instock") ∨
      ((a.stockStatus = "instock" ↔ b.stockStatus = "instock") ∧
        (b.averageRating.getD 0 < a.averageRating.getD 0 ∨
          (a.averageRating.getD 0 = b.averageRating.getD 0 ∧
            (b.reviewCount.getD 0 : ℚ) ≤ (a.reviewCount.getD 0 : ℚ)))) := by
  unfold prodLe compareProducts
  split_ifs with h1 h2 h3
  · exact ⟨fun _ => Or.inl h1, fun _ => by norm_num⟩
  · constructor
    · intro h
      exfalso
      linarith
    · rintro (h | ⟨hiff, _⟩)
      · exact absurd h h1
      · exact absurd (hiff.mpr h2.1) h2.2
  · have hiff : (a.stockStatus = "instock" ↔ b.stockStatus = "instock") := by
      constructor
      · intro ha
        by_contra hb
        exact h1 ⟨ha, hb⟩
      · intro hb
        by_contra ha
        exact h2 ⟨hb, ha⟩
    constructor
    · intro h
      refine Or.inr ⟨hiff, Or.inl ?_⟩
      rcases lt_or_eq_of_le (by linarith : b.averageRating.getD 0 ≤ a.averageRating.getD 0) with h' | h'
      · exact h'
      · exact absurd h'.symm h3
    · rintro (h | ⟨_, h | ⟨h, _⟩⟩)
      · exact absurd h h1
      · linarith
      · exact absurd h h3
  · push_neg at h3
    constructor
    · intro h
      refine Or.inr ⟨?_, Or.inr ⟨h3, by linarith⟩⟩
      constructor
      · intro ha
        by_contra hb
        exact h1 ⟨ha, hb⟩
      · intro hb
        by_contra ha
        exact h2 ⟨hb, ha⟩
    · rintro (h | ⟨_, h | ⟨_, h⟩⟩)
      · exact absurd h h1
      · exact absurd h3 (by linarith)
      · linarith

instance : IsTotal Product prodLe := by
  constructor
  intro a b
  rw [prodLe_iff, prodLe_iff]
  by_cases ha : a.stockStatus = "instock" <;> by_cases hb : b.stockStatus = "instock"
  · rcases lt_trichotomy (a.averageRating.getD 0) (b.averageRating.getD 0) with h | h | h
    · exact Or.inr (Or.inr ⟨by tauto, Or.inl h⟩)
    · rcases le_total ((b.reviewCount.getD 0 : ℚ)) ((a.reviewCount.getD 0 : ℚ)) with h' | h'
      · exact Or.inl (Or.inr ⟨by tauto, Or.inr ⟨h, h'⟩⟩)
      · exact Or.inr (Or.inr ⟨by tauto, Or.inr ⟨h.symm, h'⟩⟩)
    · exact Or.inl (Or.inr ⟨by tauto, Or.inl h⟩)
  · exact Or.inl (Or.inl ⟨ha, hb⟩)
  · exact Or.inr (Or.inl ⟨hb, ha⟩)
  · rcases lt_trichotomy (a.averageRating.getD 0) (b.averageRating.getD 0) with h | h | h
    · exact Or.inr (Or.inr ⟨by tauto, Or.inl h⟩)
    · rcases le_total ((b.reviewCount.getD 0 : ℚ)) ((a.reviewCount.getD 0 : ℚ)) with h' | h'
      · exact Or.inl (Or.inr ⟨by tauto, Or.inr ⟨h, h'⟩⟩)
      · exact Or.inr (Or.inr ⟨by tauto, Or.inr ⟨h.symm, h'⟩⟩)
    · exact Or.inl (Or.inr ⟨by tauto, Or.inl h⟩)

instance : IsTrans Product prodLe := by
  constructor
  intro a b c hab hbc
  rw [prodLe_iff] at hab hbc ⊢
  rcases hab with ⟨ha, hnb⟩ | ⟨hab_iff, hab_rest⟩
  · rcases hbc with ⟨hb, _⟩ | ⟨hbc_iff, _⟩
    · exact absurd hb hnb
    · by_cases hc : c.stockStatus = "instock"
      · exact absurd (hbc_iff.mpr hc) hnb
      · exact Or.inl ⟨ha, hc⟩
  · rcases hbc with ⟨hb, hnc⟩ | ⟨hbc_iff, hbc_rest⟩
    · exact Or.inl ⟨hab_iff.mpr hb, hnc⟩
    · refine Or.inr ⟨hab_iff.trans hbc_iff, ?_⟩
      rcases hab_rest with h1 | ⟨h1, h1'⟩
      · rcases hbc_rest with h2 | ⟨h2, _⟩
        · exact Or.inl (h2.trans h1)
        · exact Or.inl (h2 ▸ h1)
      · rcases hbc_rest with h2 | ⟨h2, h2'⟩
        · exact Or.inl (h1 ▸ h2)
        · exact Or.inr ⟨h1.trans h2, h2'.trans h1'⟩

/-- The sort applied to candidate product lists: a stable sort by the
comparator (JS `Array.prototype.sort` is stable, and stable sorts agree
on total preorders). -/
def sortProducts (l : List Product) : List Product := List.insertionSort prodLe l

/-- `prodLe` never puts an out-of-stock product before an in-stock one. -/
theorem prodLe_stock {x y : Product} (h : prodLe x y)
    (hy : y.stockStatus = "instock") : x.stockStatus = "instock" := by
  rcases (prodLe_iff x y).mp h with ⟨hx, _⟩ | ⟨hiff, _⟩
  · exact hx
  · exact hiff.mpr hy

/-- C4: the product-ranking comparator of `enhanceResponse` (in-stock
before out-of-stock, then higher average rating, then higher review
count) is deterministic (it is a function of the candidate list) and
idempotent — re-sorting a sorted list is the identity — and in the
sorted output no in-stock product ever appears after an out-of-stock
product. -/
theorem claim_C4_ranking_idempotent_stock_first :
    (∀ l : List Product, sortProducts (sortProducts l) = sortProducts l) ∧
    (∀ l : List Product, (sortProducts l).Pairwise
      (fun x y => y.stockStatus = "instock" → x.stockStatus = "instock")) := by
  constructor
  · intro l
    exact (List.sorted_insertionSort prodLe l).insertionSort_eq
  · intro l
    exact (List.sorted_insertionSort prodLe l).imp (fun h hy => prodLe_stock h hy)

/-! ## Spec-side reformulation of the fallback sentiment -/

/-- The whitespace tokens of the lower-cased message. -/
def sentimentWordTokens (m : String) : List String := splitWSCore (toLowerChars m)

/-- Positive-word count minus negative-word count, as a rational. -/
def sentimentRawScore (m : String) : ℚ :=
  ((sentimentWordTokens m).countP (fun w => positiveWords.contains w) : ℚ) -
    ((sentimentWordTokens m).countP (fun w => negativeWords.contains w) : ℚ)

theorem sentiment_foldl (l : List String) (z : ℚ) :
    l.foldl
      (fun s word =>
        let s1 := if positiveWords.contains word then s + 1 else s
        if negativeWords.contains word then s1 - 1 else s1) z =
      z + (l.countP (fun w => positiveWords.contains w) : ℚ) -
        (l.countP (fun w => negativeWords.contains w) : ℚ) := by
  induction l generalizing z with
  | nil => simp
  | cons a l ih =>
    rcases Bool.eq_false_or_eq_true (positiveWords.contains a) with hp | hp <;>
      rcases Bool.eq_false_or_eq_true (negativeWords.contains a) with hn | hn <;>
        simp only [List.foldl_cons, ih, List.countP_cons, hp, hn, if_true, if_false,
          Nat.cast_add, Nat.cast_one, Nat.cast_zero] <;>
        norm_num <;>
        ring

/-- `calculateSimpleSentiment` computes exactly the clamped, scaled,
word-count-normalised positive/negative word score. -/
theorem calculateSimpleSentiment_eq (m : String) :
    calculateSimpleSentiment m =
      jsMax (-1) (jsMin 1 (10 * sentimentRawScore m / ((sentimentWordTokens m).length : ℚ))) := by
  simp only [calculateSimpleSentiment, sentiment_foldl, sentimentRawScore, sentimentWordTokens]
  congr 2
  ring

theorem jsMax_neg_one_le (x : ℚ) : -1 ≤ jsMax (-1) x := by
  unfold jsMax
  split_ifs with h
  · exact h
  · exact le_refl _

theorem jsMax_jsMin_le_one (x : ℚ) : jsMax (-1) (jsMin 1 x) ≤ 1 := by
  unfold jsMax jsMin
  split_ifs <;> linarith

/-- C6: the classifier fallback tests the message against the per-intent
patterns in the fixed order greeting, product_inquiry, price_question,
comparison, purchase_intent, complaint, goodbye, returning the first
match and `"unknown"` when none match; `"bye"` yields `"goodbye"`,
`"this is broken and terrible"` yields a strictly negative sentiment,
and the fallback sentiment is always the word-count-normalised word
score scaled by 10 and clamped to `[-1, 1]`. -/
theorem claim_C6_classifier_fallback :
    inferIntentFromKeywords "bye" = "goodbye" ∧
    calculateSimpleSentiment "this is broken and terrible" < 0 ∧
    (∀ m, calculateSimpleSentiment m =
      jsMax (-1) (jsMin 1 (10 * sentimentRawScore m / ((sentimentWordTokens m).length : ℚ)))) ∧
    (∀ m, -1 ≤ calculateSimpleSentiment m ∧ calculateSimpleSentiment m ≤ 1) ∧
    (∀ m, (∀ e ∈ intentPatternTable, e.2 (toLowerChars m) = false) →
      inferIntentFromKeywords m = "unknown") ∧
    inferIntentFromKeywords "hi, i want to buy, bye" = "greeting" ∧
    inferIntentFromKeywords "how much is it? ok bye" = "price_question" := by
  refine ⟨by decide, ?_, calculateSimpleSentiment_eq, ?_, ?_, by decide, by decide⟩
  · have h1 : (sentimentWordTokens "this is broken and terrible").countP
        (fun w => positiveWords.contains w) = 0 := by decide
    have h2 : (sentimentWordTokens "this is broken and terrible").countP
        (fun w => negativeWords.contains w) = 2 := by decide
    have h3 : (sentimentWordTokens "this is broken and terrible").length = 5 := by decide
    rw [calculateSimpleSentiment_eq]
    unfold sentimentRawScore
    rw [h1, h2, h3]
    norm_num [jsMax, jsMin]
  · intro m
    rw [calculateSimpleSentiment_eq]
    exact ⟨jsMax_neg_one_le _, jsMax_jsMin_le_one _⟩
  · intro m h
    have hf : intentPatternTable.find? (fun e => e.2 (toLowerChars m)) = none := by
      rw [List.find?_eq_none]
      intro x hx
      simp [h x hx]
    simp [inferIntentFromKeywords, hf]

/-! ## Remaining data model: analysis, coupons, knowledge nodes, responses -/

/-- Extracted entities of a message analysis (the fields this service
reads; JS absent/empty collapse to `[]`, which the code treats alike). -/
structure Entities where
  products : List String := []
  categories : List String := []
deriving DecidableEq, Repr

/-- The JSON object returned by the analysis completion: every field may
be absent (`none`). -/
structure PartialAnalysis where
  intent : Option String := none
  sentiment : Option ℚ := none
  confidence : Option ℚ := none
  entities : Option Entities := none
  urgency : Option String := none
  purchaseReadiness : Option String := none
deriving DecidableEq, Repr

/-- The resolved per-turn message analysis. -/
structure Analysis where
  intent : String
  sentiment : ℚ
  confidence : ℚ
  entities : Entities
  urgency : String
  purchaseReadiness : String
deriving DecidableEq, Repr

/-- Coupon-issuance request parameters (`discountType`, `amount`, and the
optional `validityDays`, which `parseFunctionCallsFromContent` omits). -/
structure CouponParams where
  discountType : String
  amount : ℚ
  validityDays : Option Nat := none
deriving DecidableEq, Repr

/-- Modelled from the spec: an issued coupon carries the requested
discount type, amount and validity (the `CouponService` issuance
mechanics are an external collaborator specified only at its interface:
issuance of `{discountType, amount, validityDays}` yields an issued
coupon or none). -/
structure Coupon where
  discountType : String
  amount : ℚ
  validityDays : Option Nat
deriving DecidableEq, Repr

/-- Result of the coupon collaborator's eligibility check. -/
structure Eligibility where
  eligible : Bool
  maxDiscount : ℚ
deriving DecidableEq, Repr

/-- Metadata attached to a knowledge node. -/
structure LangGraphMeta where
  type : String
  id : Option String := none
  name : Option String := none
  price : Option ℚ := none
  currency : Option String := none
  categories : List String := []
  rating : Option ℚ := none
  reviewCount : Option Nat := none
  inStock : Option Bool := none
  permalink : Option String := none
  shortDescription : Option String := none
  imageUrl : Option String := none
  salePrice : Option ℚ := none
  regularPrice : Option ℚ := none
  onSale : Option Bool := none
deriving DecidableEq, Repr

/-- A retrievable knowledge node (product or category). -/
structure LangGraphNode where
  id : String
  content : String
  metadata : LangGraphMeta
  score : ℚ
deriving DecidableEq, Repr

/-- Parameters of a `search_products` function call. -/
structure FnSearchParams where
  query : String
  category : Option String := none
  minPrice : Option ℚ := none
  maxPrice : Option ℚ := none
deriving DecidableEq, Repr

/-- A function invocation returned by the completion provider, after
JSON-parsing its arguments (`malformedArguments` models a parse failure,
`unknownFn` a name outside the catalog). -/
inductive FnCall where
  | searchProductsFn (p : FnSearchParams)
  | getProductDetailsFn (productId : String)
  | generateCouponFn (params : CouponParams)
  | requestHumanTransferFn (reason : String)
  | unknownFn (name : String)
  | malformedArguments
deriving DecidableEq, Repr

/-- Normalised output of the generation completion call. -/
structure CompletionOut where
  content : Option String := none
  functionCall : Option FnCall := none
  totalTokens : Option Nat := none
deriving DecidableEq, Repr

/-- A dispatched action of the response (named `RespAction` to avoid a
Mathlib name clash). -/
inductive RespAction where
  | show_products (products : List Product)
  | generate_coupon (coupon : Coupon)
  | transfer_human (reason : String)
deriving DecidableEq, Repr

/-- Response metadata; absent JS keys are `none` (`fallback` defaults to
the falsy absent value). -/
structure Metadata where
  tokenUsage : Option Nat := none
  model : Option String := none
  processingTime : Option Nat := none
  totalProductCount : Option Nat := none
  fallback : Bool := false
  error : Option String := none
deriving DecidableEq, Repr

/-- A display-ready product card built by `enhanceResponse`. -/
structure DisplayProduct where
  id : String
  name : String
  price : ℚ
  price_html : String
  currency : String
  regular_price : ℚ
  sale_price : Option ℚ
  on_sale : Bool
  short_description : String
  image_url : String
  permalink : String
  rating : ℚ
  rating_html : String
  review_count : Nat
  in_stock : Bool
  stock_status : String
  categories : String
  category_list : List String
  badge : String
  availability_text : String
deriving DecidableEq, Repr

/-- The pipeline's output (`AIResponse`).  `products`, `coupons` and
`shouldEndConversation` are absent (`none`) until `enhanceResponse`
assigns them. -/
structure AIResponse where
  message : String
  intent : String
  confidence : ℚ
  sentiment : ℚ
  actions : List RespAction
  products : Option (List DisplayProduct) := none
  coupons : Option (List Coupon) := none
  shouldEndConversation : Option Bool := none
  metadata : Metadata
deriving DecidableEq, Repr

/-- Derived product-preference profile. -/
structure ProductPreferences where
  categories : List String := []
  priceRange : Option (ℚ × ℚ) := none
  features : List String := []
deriving DecidableEq, Repr

/-- Per-session conversation context. -/
structure ConversationContext where
  sessionId : String
  userId : Option String := none
  siteId : String
  userInterests : List String := []
  previousMessages : List ChatMessage := []
  currentIntent : Option String := none
  sentimentHistory : List ℚ := []
  productPreferences : ProductPreferences := {}
deriving DecidableEq, Repr

/-- An inbound request.  `contextPreviousMessages` models
`request.context?.previousMessages`: `none` when the caller supplies no
history (absent key), `some h` when it supplies one — possibly empty,
which is still truthy in JS. -/
structure AIRequest where
  message : String
  sessionId : String
  userId : Option String := none
  siteId : String
  contextPreviousMessages : Option (List ChatMessage) := none
deriving DecidableEq, Repr

/-- Filters handed to `ProductModel.searchProducts` (status is always
`publish`; the category filter is a case-insensitive name regex). -/
structure SearchFilters where
  minPrice : Option ℚ := none
  maxPrice : Option ℚ := none
  categoryRegex : Option String := none
deriving DecidableEq, Repr

/-- The environment of external collaborators for one turn.  Fallible
calls return `Except Err`; the TTL cache never throws (its wrapper
catches internally), so cache reads are plain `Option`s. -/
structure Env where
  /-- `redisCache.get` of the session's conversation context. -/
  cachedContext : Option ConversationContext := none
  /-- `redisCache.get` of the knowledge-node cache for this query. -/
  cachedKnowledge : Option (List LangGraphNode) := none
  /-- The JSON-analysis completion call; `.error` covers both a provider
  failure and malformed (non-JSON) output. -/
  analysisResult : Except Err PartialAnalysis := .error "analysis failed"
  /-- `ProductModel.searchProducts(siteId, query, {status: publish, …})`. -/
  searchProducts : String → SearchFilters → Except Err (List Product) := fun _ _ => .ok []
  /-- `ProductService.getAllProducts(siteId, true)` (includes out of stock). -/
  getAllProducts : Except Err (List Product) := .ok []
  /-- `ProductModel.findBySite(siteId, {status: publish})`. -/
  findBySite : Except Err (List Product) := .ok []
  /-- `ProductModel.countDocuments({siteId, status: publish})`. -/
  countPublished : Except Err Nat := .ok 0
  /-- `ProductModel.findOne({id, siteId})`. -/
  findProductById : String → Except Err (Option Product) := fun _ => .ok none
  /-- `ProductModel.findByCategory(siteId, category)`. -/
  findByCategory : String → Except Err (List Product) := fun _ => .ok []
  /-- The generation completion call (content, optional function call,
  token usage); an `.error` is rethrown by `generateAIResponse`. -/
  completion : Except Err CompletionOut := .error "completion failed"
  /-- `config.openai.model.includes('claude')`. -/
  isClaudeModel : Bool := false
  /-- `config.openai.model`. -/
  modelName : String := "model"
  /-- `Date.now()`. -/
  now : Nat := 0
  /-- `CouponService.checkCouponEligibility(sessionId, siteId, userId)`. -/
  checkCouponEligibility : Except Err Eligibility := .ok ⟨false, 0⟩
  /-- Whether `CouponService.generateCouponForSession` issues a coupon for
  the given parameters (`.error` = the call throws). -/
  issueCoupon : CouponParams → Except Err Bool := fun _ => .ok false
  /-- `Math.floor(Math.random() * fallbackMessages.length)`. -/
  randomIndex : Fin 4 := 0

/-! ## JS value helpers -/

/-- JS `o || d` for strings (empty string is falsy). -/
def jsStrOr (o : Option String) (d : String) : String :=
  match o with
  | some s => if s = "" then d else s
  | none => d

/-- JS `o || d` for optional strings in boolean position. -/
def jsTruthy (o : Option String) : Bool :=
  match o with
  | some s => !(s = "")
  | none => false

/-- JS template-literal rendering of a possibly-absent value
(`undefined` prints as the string `"undefined"`). -/
def jsShowOptStr (o : Option String) : String := o.getD "undefined"

def jsShowOptQ (o : Option ℚ) : String :=
  match o with
  | some q => toString q
  | none => "undefined"

def jsShowOptN (o : Option Nat) : String :=
  match o with
  | some n => toString n
  | none => "undefined"

/-- JS `product.salePrice && product.salePrice < product.regularPrice`
(0 and `undefined` are falsy; a comparison with `undefined` is false). -/
def jsOnSaleRaw (sp rp : Option ℚ) : Bool :=
  match sp with
  | none => false
  | some s =>
    if s = 0 then false
    else
      match rp with
      | some r => decide (s < r)
      | none => false

/-- First-occurrence deduplication (JS `[...new Set(xs)]`). -/
def dedupFirst : List String → List String
  | [] => []
  | a :: rest => a :: (dedupFirst rest).filter (fun b => b ≠ a)

/-- First-occurrence deduplication of products by `id`
(`self.findIndex(p => p.id === product.id)`). -/
def dedupById : List Product → List Product
  | [] => []
  | p :: rest => p :: (dedupById rest).filter (fun q => q.id ≠ p.id)

/-! ## Knowledge retriever (`getProductKnowledge`) -/

/-- The `product` knowledge node built for one catalog product. -/
def productNode (product : Product) : LangGraphNode :=
  { id := product.id
    content := product.name ++ ": " ++ jsShowOptStr product.description ++ ". Price: " ++
      jsShowOptStr product.currency ++ toString product.price ++ ". Categories: " ++
      String.intercalate ", " (product.categories.map (fun c => c.name)) ++ ". Rating: " ++
      jsShowOptQ product.averageRating ++ "/5 (" ++ jsShowOptN product.reviewCount ++
      " reviews)."
    metadata :=
      { type := "product"
        id := some product.id
        name := some product.name
        price := some product.price
        currency := product.currency
        categories := product.categories.map (fun c => c.name)
        rating := product.averageRating
        reviewCount := product.reviewCount
        inStock := some (product.stockStatus = "instock")
        permalink := some product.permalink
        shortDescription := (match product.shortDescription with
          | some s => some s
          | none => product.description.map (fun d => String.mk (d.data.take 150)))
        imageUrl := product.images.head?
        salePrice := product.salePrice
        regularPrice := product.regularPrice
        onSale := some (jsOnSaleRaw product.salePrice product.regularPrice) }
    score := 1 }

/-- The `category` knowledge node for one distinct category name. -/
def categoryNode (category : String) : LangGraphNode :=
  { id := "category_" ++ category
    content := "Product category: " ++ category ++ ". Available products in this category."
    metadata := { type := "category", name := some category }
    score := 8/10 }

/-- Map a product list to its knowledge nodes: one product node per
product, then one category node per distinct category name observed. -/
def buildNodes (products : List Product) : List LangGraphNode :=
  products.map productNode ++
    (dedupFirst (products.flatMap (fun p => p.categories.map (fun c => c.name)))).map
      categoryNode

/-- The cache-miss retrieval: all-products listing or text search, with a
fall-back to the full published catalog when the primary result is empty;
any thrown error is caught by `getProductKnowledge`. -/
def getProductKnowledgeE (env : Env) (query : String) : Except Err (List LangGraphNode) := do
  let primary ←
    if isRequestingAllProducts query then env.getAllProducts
    else env.searchProducts query {}
  let products ← if primary = [] then env.findBySite else pure primary
  pure (buildNodes products)

/-- `getProductKnowledge(query, siteId)`: cached nodes if present (JS
truthiness: a cached empty list is returned as-is), otherwise the
cache-miss retrieval; retrieval errors yield `[]`, never an exception. -/
def getProductKnowledge (env : Env) (query : String) : List LangGraphNode :=
  match env.cachedKnowledge with
  | some cached => cached
  | none =>
    match getProductKnowledgeE env query with
    | .ok nodes => nodes
    | .error _ => []

/-! ## Session context store (`buildConversationContext`) -/

/-- The fixed interest vocabulary of `extractUserInterests`. -/
def interestKeywords : List String :=
  ["electronics", "clothing", "shoes", "books", "home", "garden",
   "sports", "fitness", "beauty", "health", "toys", "automotive",
   "cheap", "expensive", "quality", "durable", "fast", "reliable"]

/-- Keyword interests: case-insensitive substring scan over user-authored
messages; `Set` insertion order = order of first activation. -/
def extractUserInterests (messages : List ChatMessage) : List String :=
  dedupFirst (messages.foldl
    (fun acc m =>
      if m.type = "user" then
        acc ++ interestKeywords.filter (fun k => listContains k.data (toLowerChars m.content))
      else acc)
    [])

/-- Numeric value of a digit run. -/
def digitsVal (ds : List Char) : ℚ :=
  ds.foldl (fun v c => v * 10 + ((c.toNat - 48 : ℕ) : ℚ)) 0

/-- The tokens matched by `/\$?(\d+(?:\.\d{2})?)/g` (as parsed values):
every maximal digit run, extended by exactly two decimals when a `.` and
two digits follow; a `\$?` prefix never changes the extracted values.
Fuel-based recursion so that concrete inputs kernel-evaluate. -/
def scanPricesF : Nat → List Char → List ℚ
  | 0, _ => []
  | _, [] => []
  | fuel + 1, c :: rest =>
    if c.isDigit then
      let ds := (c :: rest).takeWhile Char.isDigit
      let after := (c :: rest).dropWhile Char.isDigit
      match after with
      | '.' :: a :: b :: rest2 =>
        if a.isDigit ∧ b.isDigit then
          (digitsVal ds + (10 * ((a.toNat - 48 : ℕ) : ℚ) + ((b.toNat - 48 : ℕ) : ℚ)) / 100) ::
            scanPricesF fuel rest2
        else digitsVal ds :: scanPricesF fuel after
      | _ => digitsVal ds :: scanPricesF fuel after
    else scanPricesF fuel rest

def scanPrices (cs : List Char) : List ℚ := scanPricesF cs.length cs

/-- `analyzeProductPreferences`: scans user messages for price mentions;
a message with two or more numeric tokens overwrites the price range with
its min/max, fewer leave the previous value untouched.  Categories and
features are never filled in by the source. -/
def analyzeProductPreferences (messages : List ChatMessage) : ProductPreferences :=
  { categories := []
    features := []
    priceRange := messages.foldl
      (fun pr m =>
        if m.type = "user" then
          match scanPrices (toLowerChars m.content) with
          | p :: ps =>
            if ps.length + 1 ≥ 2 then
              some (ps.foldl jsMin p, ps.foldl jsMax p)
            else pr
          | [] => pr
        else pr)
      none }

/-- `buildConversationContext`: read the cached context (or initialise a
fresh one from the request), overwrite `previousMessages` whenever the
request supplies a history (JS truthiness: an empty array is truthy),
then recompute interests and preferences.  The cache write never throws. -/
def buildConversationContext (env : Env) (request : AIRequest) : ConversationContext :=
  let context0 : ConversationContext :=
    match env.cachedContext with
    | some c => c
    | none =>
      { sessionId := request.sessionId
        userId := request.userId
        siteId := request.siteId
        userInterests := []
        previousMessages := request.contextPreviousMessages.getD []
        sentimentHistory := []
        productPreferences := { categories := [], features := [] } }
  let context1 :=
    match request.contextPreviousMessages with
    | some msgs => { context0 with previousMessages := msgs }
    | none => context0
  { context1 with
    userInterests := extractUserInterests context1.previousMessages
    productPreferences := analyzeProductPreferences context1.previousMessages }

/-! ## Classifier (`analyzeUserMessage`) -/

/-- Resolve the parsed analysis JSON: absent keys take the documented
defaults (present keys win via the trailing object spread of the source);
on a completion failure or parse error, fall back to the deterministic
keyword/sentiment path with confidence 0.3. -/
def analyzeUserMessage (env : Env) (message : String)
    (_context : ConversationContext) : Analysis :=
  match env.analysisResult with
  | .ok p =>
    { intent := p.intent.getD "unknown"
      sentiment := p.sentiment.getD 0
      confidence := p.confidence.getD (1/2)
      entities := p.entities.getD {}
      urgency := p.urgency.getD "medium"
      purchaseReadiness := p.purchaseReadiness.getD "researching" }
  | .error _ =>
    { intent := inferIntentFromKeywords message
      sentiment := calculateSimpleSentiment message
      confidence := 3/10
      entities := {}
      urgency := "medium"
      purchaseReadiness := "researching" }

/-! ## Coupon issuance -/

/-- Modelled from the spec: `CouponService.generateCouponForSession`
(missing from the sources; per the interface contract, issuance of
`{discountType, amount, validityDays}` returns an issued coupon honouring
those parameters, or none). -/
def generateCouponForSession (env : Env) (params : CouponParams) : Except Err (Option Coupon) :=
  (env.issueCoupon params).map
    (fun issued =>
      if issued then some ⟨params.discountType, params.amount, params.validityDays⟩ else none)

/-- `generateCouponIfEligible`: eligibility check, then a percentage
coupon capped at 15 with 7-day validity; every failure is caught and
yields `[]`. -/
def generateCouponIfEligible (env : Env) (_context : ConversationContext)
    (_analysis : Analysis) : List Coupon :=
  match (do
      let eligibility ← env.checkCouponEligibility
      if ¬ eligibility.eligible then
        pure []
      else do
        let couponParams : CouponParams :=
          { discountType := "percentage"
            amount := jsMin eligibility.maxDiscount 15
            validityDays := some 7 }
        match ← generateCouponForSession env couponParams with
        | some coupon => pure [coupon]
        | none => pure [] : Except Err (List Coupon)) with
  | .ok coupons => coupons
  | .error _ => []

/-! ## Search helper and function-call handling -/

/-- The private `searchProducts` method: text search with assembled
filters, all results, `[]` on any error. -/
def searchProductsMethod (env : Env) (p : FnSearchParams) : List Product :=
  match env.searchProducts p.query
      { minPrice := p.minPrice, maxPrice := p.maxPrice, categoryRegex := p.category } with
  | .ok products => products
  | .error _ => []

/-- `handleFunctionCall` (native function-calling mode): dispatch on the
function name; a thrown error is caught, leaving the actions pushed so
far (at most one push per case, so an error yields `[]`). -/
def handleFunctionCall (env : Env) (_context : ConversationContext) (fc : FnCall) :
    List RespAction :=
  match fc with
  | .searchProductsFn p => [RespAction.show_products (searchProductsMethod env p)]
  | .getProductDetailsFn productId =>
    match env.findProductById productId with
    | .ok (some product) => [RespAction.show_products [product]]
    | .ok none => []
    | .error _ => []
  | .generateCouponFn params =>
    match generateCouponForSession env params with
    | .ok (some coupon) => [RespAction.generate_coupon coupon]
    | .ok none => []
    | .error _ => []
  | .requestHumanTransferFn reason => [RespAction.transfer_human reason]
  | .unknownFn _ => []
  | .malformedArguments => []

/-! ### Text-pattern mode (`parseFunctionCallsFromContent`)

The search trigger is
`/search[_\s]products?\s*[:\-]?\s*(.+?)(?:\n|$)/i`: the lazy capture and
the greedy optional parts around it require genuine backtracking, which
the three `…Then` combinators implement (try the greedy consumption
first, fall back to consuming less). -/

/-- `(.+?)(?:\n|$)`: at least one non-newline character; the lazy group
captures up to the next newline or the end. -/
def captureRest (cs : List Char) : Option (List Char) :=
  match cs with
  | [] => none
  | c :: _ => if c == '\n' then none else some (cs.takeWhile (fun d => d != '\n'))

/-- Greedy `\s*` followed by the continuation, with backtracking. -/
def wsStarThen (k : List Char → Option (List Char)) : List Char → Option (List Char)
  | [] => k []
  | c :: rest =>
    if isSpaceChar c then
      match wsStarThen k rest with
      | some r => some r
      | none => k (c :: rest)
    else k (c :: rest)

/-- Greedy `[:\-]?` followed by the continuation, with backtracking. -/
def optPunctThen (k : List Char → Option (List Char)) : List Char → Option (List Char)
  | [] => k []
  | c :: rest =>
    if c == ':' || c == '-' then
      match k rest with
      | some r => some r
      | none => k (c :: rest)
    else k (c :: rest)

/-- Greedy `s?` followed by the continuation, with backtracking
(case-insensitive). -/
def optSThen (k : List Char → Option (List Char)) : List Char → Option (List Char)
  | [] => k []
  | c :: rest =>
    if c.toLower == 's' then
      match k rest with
      | some r => some r
      | none => k (c :: rest)
    else k (c :: rest)

/-- Match `search[_\s]products?\s*[:\-]?\s*(.+?)(?:\n|$)` at the head of
the text (case-insensitively), returning the capture. -/
def searchCmdAt (cs : List Char) : Option (List Char) :=
  match dropLitCI "search".data cs with
  | some (c :: rest) =>
    if c == '_' || isSpaceChar c then
      match dropLitCI "product".data rest with
      | some rest2 => optSThen (wsStarThen (optPunctThen (wsStarThen captureRest))) rest2
      | none => none
    else none
  | _ => none

/-- Leftmost match of the search trigger over the whole text. -/
def scanSearchCapture : List Char → Option (List Char)
  | [] => none
  | c :: rest =>
    match searchCmdAt (c :: rest) with
    | some cap => some cap
    | none => scanSearchCapture rest

/-- JS `String.trim` (on the boundary whitespace characters). -/
def trimChars (cs : List Char) : List Char :=
  ((cs.dropWhile isSpaceChar).reverse.dropWhile isSpaceChar).reverse

/-- `/generate[_\s]coupon|discount|offer/i` — a top-level alternation:
`generate` + one `[_\s]` + `coupon`, or the substrings `discount` /
`offer`. -/
def matchGenCouponAt (cs : List Char) : Bool :=
  match dropLitCI "generate".data cs with
  | some (c :: rest) => (c == '_' || isSpaceChar c) && (dropLitCI "coupon".data rest).isSome
  | _ => false

def scanGenCoupon : List Char → Bool
  | [] => false
  | c :: rest => matchGenCouponAt (c :: rest) || scanGenCoupon rest

def couponTriggerPat (content : String) : Bool :=
  scanGenCoupon content.data || containsCI "discount" content || containsCI "offer" content

/-- `/transfer|human|agent|representative/i`. -/
def transferPat (content : String) : Bool :=
  containsCI "transfer" content || containsCI "human" content ||
    containsCI "agent" content || containsCI "representative" content

/-- `parseFunctionCallsFromContent` (text-pattern mode for Claude-style
models): detect a product search, a coupon/discount offer and a human
transfer in the reply text.  The coupon branch issues at a fixed
percentage 10 without consulting eligibility; a thrown issuance error is
caught, keeping the actions pushed before it (and skipping the transfer
branch, as the exception aborts the `try` block). -/
def parseFunctionCallsFromContent (env : Env) (_context : ConversationContext)
    (content : String) : List RespAction :=
  let searchActions : List RespAction :=
    match scanSearchCapture content.data with
    | some cap =>
      let query := String.mk ((trimChars cap).filter (fun c => !(c == '\x27' || c == '"')))
      [RespAction.show_products (searchProductsMethod env { query := query })]
    | none => []
  if couponTriggerPat content then
    match generateCouponForSession env { discountType := "percentage", amount := 10 } with
    | .error _ => searchActions
    | .ok couponOpt =>
      let acts2 := searchActions ++
        (match couponOpt with
         | some coupon => [RespAction.generate_coupon coupon]
         | none => [])
      acts2 ++
        (if transferPat content then
          [RespAction.transfer_human "Customer requested human assistance"]
        else [])
  else
    searchActions ++
      (if transferPat content then
        [RespAction.transfer_human "Customer requested human assistance"]
      else [])

/-! ## Product sourcing fallbacks (`getRelevantProducts`) -/

/-- `getRelevantProducts`: entity/category search, then user-interest
search, then last-user-message search with a final full-catalog fallback
for unknown/product_inquiry intents; duplicates removed by id; any
thrown error is caught and yields `[]`. -/
def getRelevantProductsE (env : Env) (analysis : Analysis)
    (context : ConversationContext) : Except Err (List Product) := do
  let fromEntityProducts ← analysis.entities.products.foldlM
    (fun acc productName => do
      let found ← env.searchProducts productName {}
      pure (acc ++ found)) []
  let fromCategories ← analysis.entities.categories.foldlM
    (fun acc category => do
      let found ← env.findByCategory category
      pure (acc ++ found)) []
  let products1 := fromEntityProducts ++ fromCategories
  let products2 ←
    if products1 = [] ∧ context.userInterests ≠ [] then
      env.searchProducts (String.intercalate " " context.userInterests) {}
    else pure products1
  let products3 ←
    if products2 = [] ∧ (analysis.intent = "unknown" ∨ analysis.intent = "product_inquiry") then
      match (context.previousMessages.filter (fun m => m.type = "user")).getLast? with
      | some lastUserMessage => do
        let found ← env.searchProducts lastUserMessage.content {}
        if found = [] then env.findBySite else pure found
      | none => pure products2
    else pure products2
  pure (dedupById products3)

def getRelevantProducts (env : Env) (analysis : Analysis)
    (context : ConversationContext) : List Product :=
  match getRelevantProductsE env analysis context with
  | .ok products => products
  | .error _ => []

/-! ## Display formatting (`enhanceResponse`, step "display") -/

/-- The display card built for one surviving product: sale detection,
price markup, 5-slot star markup (the half-star branch of the source
emits the same empty-star character), badge and availability text. -/
def displayProduct (product : Product) : DisplayProduct :=
  let salePrice : Option ℚ :=
    match product.salePrice with
    | some s => if 0 < s then some s else none
    | none => none
  let regularPrice : ℚ :=
    match product.regularPrice with
    | some r => if r = 0 then product.price else r
    | none => product.price
  let isOnSale : Bool :=
    match salePrice with
    | some s => decide (s < regularPrice)
    | none => false
  let currencySymbol := jsStrOr product.currency "$"
  let priceHtml : String :=
    match salePrice with
    | some s =>
      if s < regularPrice then
        "<span class=\"sale-price\">" ++ currencySymbol ++ toString s ++
          "</span> <span class=\"regular-price\">" ++ currencySymbol ++
          toString regularPrice ++ "</span> <span class=\"sale-badge\">SALE</span>"
      else "<span class=\"current-price\">" ++ currencySymbol ++ toString product.price ++ "</span>"
    | none =>
      "<span class=\"current-price\">" ++ currencySymbol ++ toString product.price ++ "</span>"
  let rating : ℚ := product.averageRating.getD 0
  let fullStars : ℤ := ⌊rating⌋
  let hasHalfStar : Bool := decide (Int.fract rating ≥ 1/2)
  let starsHtml : String := String.mk ((List.range 5).map
    (fun i =>
      if (i : ℤ) < fullStars then '★'
      else if (i : ℤ) = fullStars ∧ hasHalfStar then '☆'
      else '☆'))
  { id := product.id
    name := product.name
    price := product.price
    price_html := priceHtml
    currency := jsStrOr product.currency "USD"
    regular_price := regularPrice
    sale_price := salePrice
    on_sale := isOnSale
    short_description :=
      (match product.shortDescription with
       | some s =>
         if s = "" then
           (match product.description with
            | some d => String.mk (d.data.take 180)
            | none => "")
         else s
       | none =>
         (match product.description with
          | some d => String.mk (d.data.take 180)
          | none => ""))
    image_url :=
      (match product.images with
       | src :: _ => src
       | [] => "/wp-content/uploads/woocommerce-placeholder.png")
    permalink := product.permalink
    rating := rating
    rating_html := starsHtml
    review_count := product.reviewCount.getD 0
    in_stock := product.stockStatus = "instock"
    stock_status := product.stockStatus
    categories := String.intercalate ", " (product.categories.map (fun c => c.name))
    category_list := product.categories.map (fun c => c.name)
    badge := if isOnSale then "Sale" else (if product.stockStatus ≠ "instock" then "Out of Stock" else "")
    availability_text := if product.stockStatus = "instock" then "In Stock" else "Out of Stock" }

/-! ## Response enhancement policy (`enhanceResponse`) -/

/-- The product ids carried by `product`-type knowledge nodes
(`.map(node => node.metadata.id).filter(id => id)`, truthiness dropping
absent and empty ids). -/
def knowledgeProductIds (productKnowledge : List LangGraphNode) : List String :=
  (productKnowledge.filter (fun node => node.metadata.type = "product")).filterMap
    (fun node =>
      match node.metadata.id with
      | some s => if s = "" then none else some s
      | none => none)

/-- The fallible body of `enhanceResponse`; `enhanceResponse` catches any
thrown error and returns the response unmodified. -/
def enhanceResponseE (env : Env) (response : AIResponse) (context : ConversationContext)
    (analysis : Analysis) (query : String) (productKnowledge : List LangGraphNode) :
    Except Err AIResponse := do
  let hasProductKnowledge := productKnowledge.any (fun node => node.metadata.type = "product")
  if isInventoryQuery query then do
    let totalProducts ← env.countPublished
    pure { response with
      metadata := { response.metadata with totalProductCount := some totalProducts } }
  else do
    let enhanced1 ←
      if isProductRequest query || isShowAllQuery query || hasProductKnowledge ||
          isSpecificProductQuery query ||
          ["product_inquiry", "comparison", "purchase_intent"].contains analysis.intent then do
        let productIds := knowledgeProductIds productKnowledge
        let fromKnowledge ←
          if hasProductKnowledge ∧ productIds ≠ [] then
            productIds.foldlM
              (fun acc productId => do
                match ← env.findProductById productId with
                | some product => pure (acc ++ [product])
                | none => pure acc) []
          else pure []
        let relevantProducts :=
          if fromKnowledge = [] then getRelevantProducts env analysis context
          else fromKnowledge
        if relevantProducts ≠ [] then
          let maxProducts : Nat :=
            if isShowAllQuery query then 12
            else if isSpecificProductQuery query then 3
            else 6
          let prioritizedProducts := (sortProducts relevantProducts).take maxProducts
          pure { response with products := some (prioritizedProducts.map displayProduct) }
        else pure response
      else pure response
    let enhanced2 ←
      if analysis.intent = "purchase_intent" ∧ analysis.purchaseReadiness = "ready_to_buy" then
        pure { enhanced1 with coupons := some (generateCouponIfEligible env context analysis) }
      else pure enhanced1
    pure { enhanced2 with
      shouldEndConversation := some
        (decide (analysis.intent = "goodbye") ||
          (decide (analysis.intent = "purchase_intent") &&
            (match enhanced2.coupons with
             | some coupons => decide (coupons.length > 0)
             | none => false))) }

/-- `enhanceResponse` never throws: any internal failure returns the
unmodified generated response. -/
def enhanceResponse (env : Env) (response : AIResponse) (context : ConversationContext)
    (analysis : Analysis) (query : String) (productKnowledge : List LangGraphNode) :
    AIResponse :=
  match enhanceResponseE env response context analysis query productKnowledge with
  | .ok enhanced => enhanced
  | .error _ => response

/-! ## Completion invoker (`generateAIResponse`) and the pipeline -/

/-- `responseMessage?.content || default` (empty content is falsy). -/
def generatedMessageDefault : String :=
  "I apologize, but I encountered an issue. Could you please rephrase your question?"

/-- `generateAIResponse`: retrieve knowledge, call the completion
provider (a provider error is rethrown, not locally recovered), derive
actions from the native function call or — for Claude-style models — from
the reply text, and assemble the response.  The retrieved knowledge is
also returned, modelling the `context['productKnowledge']` side channel
consumed by `enhanceResponse`. -/
def generateAIResponse (env : Env) (request : AIRequest) (context : ConversationContext)
    (analysis : Analysis) : Except Err (AIResponse × List LangGraphNode) := do
  let productKnowledge := getProductKnowledge env request.message
  let completion ← env.completion
  let tokenUsage := completion.totalTokens.getD 0
  let actions : List RespAction :=
    match completion.functionCall with
    | some functionCall => handleFunctionCall env context functionCall
    | none =>
      if env.isClaudeModel ∧ jsTruthy completion.content then
        parseFunctionCallsFromContent env context (completion.content.getD "")
      else []
  pure
    ({ message := jsStrOr completion.content generatedMessageDefault
       intent := analysis.intent
       confidence := analysis.confidence
       sentiment := analysis.sentiment
       actions := actions
       metadata :=
         { tokenUsage := some tokenUsage
           model := some env.modelName
           processingTime := some env.now } },
     productKnowledge)

/-- The fixed fallback message pool. -/
def fallbackMessages : List String :=
  ["I apologize, but I\x27m having some technical difficulties right now. Could you please rephrase your question?",
   "I\x27m sorry, I didn\x27t quite understand that. Could you tell me more about what you\x27re looking for?",
   "Let me help you find what you need. What specific product or information are you looking for today?",
   "I\x27m here to help you with your shopping needs. What can I assist you with?"]

/-- `getFallbackResponse`: a pseudo-randomly chosen message from the
fixed pool, intent `"unknown"`, confidence 0.1, sentiment 0, no actions,
and fallback metadata carrying the causing error's message. -/
def getFallbackResponse (env : Env) (_request : AIRequest) (error : Err) : AIResponse :=
  { message := fallbackMessages.get (Fin.cast (by rfl) env.randomIndex)
    intent := "unknown"
    confidence := 1/10
    sentiment := 0
    actions := []
    metadata := { fallback := true, error := some error } }

/-- The fallible pipeline body wrapped by `processMessage`: context build
and classification never throw (their collaborators catch internally);
response caching and interaction logging are side-effect-only and
fire-and-forget. -/
def processMessageE (env : Env) (request : AIRequest) : Except Err AIResponse := do
  let context := buildConversationContext env request
  let analysis := analyzeUserMessage env request.message context
  let (aiResponse, productKnowledge) ← generateAIResponse env request context analysis
  let enhancedResponse :=
    enhanceResponse env aiResponse context analysis request.message productKnowledge
  pure enhancedResponse

/-- `processMessage`: the top-level error boundary — on any uncaught
failure, return the fallback response instead of raising. -/
def processMessage (env : Env) (request : AIRequest) : AIResponse :=
  match processMessageE env request with
  | .ok response => response
  | .error e => getFallbackResponse env request e

/-! ## Theorems: inventory short-circuit (C2, C9) -/

/-- On an inventory-count query with a successful count, `enhanceResponse`
returns the generated response with only `metadata.totalProductCount`
added. -/
theorem enhance_inventory_eq (env : Env) (response : AIResponse)
    (context : ConversationContext) (analysis : Analysis) (query : String)
    (productKnowledge : List LangGraphNode) (n : Nat)
    (hq : isInventoryQuery query = true) (hc : env.countPublished = .ok n) :
    enhanceResponse env response context analysis query productKnowledge =
      { response with metadata := { response.metadata with totalProductCount := some n } } := by
  simp only [enhanceResponse, enhanceResponseE, hq, hc, if_true, reduceIte, bind, Except.bind,
    pure, Except.pure]

/-- C2: for every request whose query matches the inventory-count
pattern, `enhanceResponse` attaches no product list; it attaches the
numeric total of published products for the site in the metadata and
returns immediately with nothing else added. -/
theorem claim_C2_inventory_count (env : Env) (response : AIResponse)
    (context : ConversationContext) (analysis : Analysis) (query : String)
    (productKnowledge : List LangGraphNode) (n : Nat)
    (hp : response.products = none)
    (hq : isInventoryQuery query = true) (hc : env.countPublished = .ok n) :
    (enhanceResponse env response context analysis query productKnowledge).products = none ∧
    (enhanceResponse env response context analysis query
        productKnowledge).metadata.totalProductCount = some n ∧
    enhanceResponse env response context analysis query productKnowledge =
      { response with metadata := { response.metadata with totalProductCount := some n } } := by
  rw [enhance_inventory_eq env response context analysis query productKnowledge n hq hc]
  exact ⟨hp, rfl, rfl⟩

def invEnv : Env := { countPublished := .ok 20 }

def invResponse : AIResponse :=
  { message := "We have a few.", intent := "goodbye", confidence := 1/2, sentiment := 0,
    actions := [], metadata := {} }

def invContext : ConversationContext := { sessionId := "s1", siteId := "site1" }

def invAnalysis : Analysis :=
  { intent := "goodbye", sentiment := 0, confidence := 1/2, entities := {},
    urgency := "medium", purchaseReadiness := "ready_to_buy" }

theorem claim_C2_inventory_count_witness :
    (enhanceResponse invEnv invResponse invContext invAnalysis
        "how many laptops do you have" []).products = none ∧
    (enhanceResponse invEnv invResponse invContext invAnalysis
        "how many laptops do you have" []).metadata.totalProductCount = some 20 :=
  ⟨(claim_C2_inventory_count invEnv invResponse invContext invAnalysis _ [] 20 rfl
      (by decide) rfl).1,
   (claim_C2_inventory_count invEnv invResponse invContext invAnalysis _ [] 20 rfl
      (by decide) rfl).2.1⟩

/-- C9: on the inventory short-circuit path `enhanceResponse` returns
before the coupon and termination steps: every field other than
`metadata.totalProductCount` is exactly that of the generated response —
in particular no coupon is attached and `shouldEndConversation` is never
set, for every analysis (including goodbye or purchase_intent with
ready_to_buy readiness). -/
theorem claim_C9_inventory_frame (env : Env) (response : AIResponse)
    (context : ConversationContext) (analysis : Analysis) (query : String)
    (productKnowledge : List LangGraphNode) (n : Nat)
    (hq : isInventoryQuery query = true) (hc : env.countPublished = .ok n) :
    (enhanceResponse env response context analysis query productKnowledge).message =
        response.message ∧
    (enhanceResponse env response context analysis query productKnowledge).intent =
        response.intent ∧
    (enhanceResponse env response context analysis query productKnowledge).confidence =
        response.confidence ∧
    (enhanceResponse env response context analysis query productKnowledge).sentiment =
        response.sentiment ∧
    (enhanceResponse env response context analysis query productKnowledge).actions =
        response.actions ∧
    (enhanceResponse env response context analysis query productKnowledge).products =
        response.products ∧
    (enhanceResponse env response context analysis query productKnowledge).coupons =
        response.coupons ∧
    (enhanceResponse env response context analysis query
        productKnowledge).shouldEndConversation = response.shouldEndConversation ∧
    (enhanceResponse env response context analysis query productKnowledge).metadata =
      { response.metadata with totalProductCount := some n } := by
  rw [enhance_inventory_eq env response context analysis query productKnowledge n hq hc]
  exact ⟨rfl, rfl, rfl, rfl, rfl, rfl, rfl, rfl, rfl⟩

theorem claim_C9_inventory_frame_witness :
    (enhanceResponse invEnv invResponse invContext invAnalysis
        "how many laptops do you have" []).coupons = invResponse.coupons ∧
    (enhanceResponse invEnv invResponse invContext invAnalysis
        "how many laptops do you have" []).shouldEndConversation =
      invResponse.shouldEndConversation :=
  ⟨(claim_C9_inventory_frame invEnv invResponse invContext invAnalysis _ [] 20
      (by decide) rfl).2.2.2.2.2.2.1,
   (claim_C9_inventory_frame invEnv invResponse invContext invAnalysis _ [] 20
      (by decide) rfl).2.2.2.2.2.2.2.1⟩

/-! ## Theorems: product-list cap (C3) -/

/-- On a non-inventory query, `enhanceResponse` either leaves the
products field unchanged or attaches the sorted, truncated candidate
list. -/
theorem enhance_products_shape (env : Env) (response : AIResponse)
    (context : ConversationContext) (analysis : Analysis) (query : String)
    (pk : List LangGraphNode)
    (hq : isInventoryQuery query = false) :
    (enhanceResponse env response context analysis query pk).products = response.products ∨
    ∃ l : List Product, l ≠ [] ∧
      (enhanceResponse env response context analysis query pk).products =
        some (((sortProducts l).take
          (if isShowAllQuery query then 12 else if isSpecificProductQuery query then 3
           else 6)).map displayProduct) := by
  unfold enhanceResponse
  cases henh : enhanceResponseE env response context analysis query pk with
  | error e => exact Or.inl rfl
  | ok r =>
    simp only [enhanceResponseE, hq, Bool.false_eq_true, if_false, bind, Except.bind, pure,
      Except.pure] at henh
    split at henh
    · split at henh
      · split at henh
        · exact absurd henh (by simp)
        · rename_i x v heq
          rcases eq_or_ne v [] with hv | hv
          · rw [if_pos hv] at henh
            split at henh <;> split at henh <;>
              injection henh with hr <;> subst hr <;>
              first
                | exact Or.inl rfl
                | (refine Or.inr ⟨_, ?_, rfl⟩; assumption)
          · rw [if_neg hv] at henh
            split at henh <;> split at henh <;>
              injection henh with hr <;> subst hr <;>
              first
                | exact Or.inl rfl
                | (refine Or.inr ⟨_, ?_, rfl⟩; assumption)
      · simp only [if_true] at henh
        split at henh <;> split at henh <;>
          injection henh with hr <;> subst hr <;>
          first
            | exact Or.inl rfl
            | (refine Or.inr ⟨_, ?_, rfl⟩; assumption)
    · split at henh <;> injection henh with hr <;> subst hr <;> exact Or.inl rfl

/-- C3: whenever `enhanceResponse` attaches a product list, its length is
bounded by the query-shape cap: 12 for an explicit "show all" query, else
3 for a specific known brand/model query, else 6 (the source applies the
caps in this precedence order). -/
theorem claim_C3_product_list_cap (env : Env) (response : AIResponse)
    (context : ConversationContext) (analysis : Analysis) (query : String)
    (productKnowledge : List LangGraphNode)
    (hp : response.products = none) (ps : List DisplayProduct)
    (hres : (enhanceResponse env response context analysis query productKnowledge).products =
      some ps) :
    ps.length ≤
      (if isShowAllQuery query then 12 else if isSpecificProductQuery query then 3 else 6) := by
  by_cases hq : isInventoryQuery query = true
  · cases hc : env.countPublished with
    | ok n =>
      rw [enhance_inventory_eq env response context analysis query productKnowledge n hq hc]
        at hres
      simp [hp] at hres
    | error e =>
      have hsame : enhanceResponse env response context analysis query productKnowledge =
          response := by
        simp only [enhanceResponse, enhanceResponseE, hq, if_true, reduceIte, bind, Except.bind,
          hc]
      rw [hsame, hp] at hres
      exact absurd hres (by simp)
  · have hq' : isInventoryQuery query = false := by
      simpa using hq
    rcases enhance_products_shape env response context analysis query productKnowledge hq'
      with h | ⟨l, _, h⟩
    · rw [hres, hp] at h
      exact absurd h (by simp)
    · rw [hres] at h
      injection h with h2
      rw [h2, List.length_map, List.length_take]
      exact min_le_left _ _

def capProduct : Product :=
  { id := "a", name := "Laptop A", price := 10, stockStatus := "instock" }

def capEnv : Env :=
  { searchProducts := fun _ _ => .ok [capProduct] }

def capResponse : AIResponse :=
  { message := "Here you go.", intent := "product_inquiry", confidence := 1/2, sentiment := 0,
    actions := [], metadata := {} }

def capContext : ConversationContext :=
  { sessionId := "s1", siteId := "site1",
    previousMessages := [{ type := "user", content := "laptops" }] }

def capAnalysis : Analysis :=
  { intent := "product_inquiry", sentiment := 0, confidence := 1/2, entities := {},
    urgency := "medium", purchaseReadiness := "researching" }

theorem claim_C3_product_list_cap_witness :
    ([displayProduct capProduct] : List DisplayProduct).length ≤
      (if isShowAllQuery "any laptops?" then 12
       else if isSpecificProductQuery "any laptops?" then 3 else 6) :=
  claim_C3_product_list_cap capEnv capResponse capContext capAnalysis "any laptops?" [] rfl
    [displayProduct capProduct] (by rfl)

/-! ## Theorems: coupon policy (C5) -/

/-- `enhanceResponse` either leaves the coupons field unchanged, or — only
under purchase_intent with ready_to_buy — sets it to the eligibility-gated
issuance result. -/
theorem enhance_coupons_shape (env : Env) (response : AIResponse)
    (context : ConversationContext) (analysis : Analysis) (query : String)
    (pk : List LangGraphNode) :
    (enhanceResponse env response context analysis query pk).coupons = response.coupons ∨
    ((analysis.intent = "purchase_intent" ∧ analysis.purchaseReadiness = "ready_to_buy") ∧
      (enhanceResponse env response context analysis query pk).coupons =
        some (generateCouponIfEligible env context analysis)) := by
  unfold enhanceResponse
  cases henh : enhanceResponseE env response context analysis query pk with
  | error e => exact Or.inl rfl
  | ok r =>
    simp only [enhanceResponseE, bind, Except.bind, pure, Except.pure] at henh
    split at henh
    · split at henh
      · exact absurd henh (by simp)
      · injection henh with hr
        subst hr
        exact Or.inl rfl
    · split at henh
      · split at henh
        · split at henh
          · exact absurd henh (by simp)
          · rename_i x v heq
            rcases eq_or_ne v [] with hv | hv
            · rw [if_pos hv] at henh
              split at henh <;> split at henh <;>
                injection henh with hr <;> subst hr <;>
                first
                  | exact Or.inl rfl
                  | (refine Or.inr ⟨?_, rfl⟩; assumption)
            · rw [if_neg hv] at henh
              split at henh <;> split at henh <;>
                injection henh with hr <;> subst hr <;>
                first
                  | exact Or.inl rfl
                  | (refine Or.inr ⟨?_, rfl⟩; assumption)
        · simp only [if_true] at henh
          split at henh <;> split at henh <;>
            injection henh with hr <;> subst hr <;>
            first
              | exact Or.inl rfl
              | (refine Or.inr ⟨?_, rfl⟩; assumption)
      · split at henh <;> injection henh with hr <;> subst hr <;>
          first
            | exact Or.inl rfl
            | (refine Or.inr ⟨?_, rfl⟩; assumption)

theorem jsMin_le_right (a b : ℚ) : jsMin a b ≤ b := by
  unfold jsMin
  split_ifs with h
  · exact h
  · exact le_refl _

theorem generateCouponIfEligible_shape (env : Env) (context : ConversationContext)
    (analysis : Analysis) :
    generateCouponIfEligible env context analysis = [] ∨
    ∃ elig : Eligibility, env.checkCouponEligibility = .ok elig ∧ elig.eligible = true ∧
      generateCouponIfEligible env context analysis =
        [⟨"percentage", jsMin elig.maxDiscount 15, some 7⟩] := by
  unfold generateCouponIfEligible
  cases hc : env.checkCouponEligibility with
  | error e => simp [bind, Except.bind]
  | ok elig =>
    rcases Bool.eq_false_or_eq_true elig.eligible with he | he
    case inr => simp [he, bind, Except.bind, pure, Except.pure]
    case inl => cases hiss :
        (env.issueCoupon ⟨"percentage", jsMin elig.maxDiscount 15, some 7⟩) with
      | error e =>
        simp [he, generateCouponForSession, hiss, bind, Except.bind, Except.map, pure,
          Except.pure]
      | ok b =>
        cases b with
        | false =>
          simp [he, generateCouponForSession, hiss, bind, Except.bind, Except.map, pure,
            Except.pure]
        | true =>
          refine Or.inr ⟨elig, rfl, he, ?_⟩
          simp [he, generateCouponForSession, hiss, bind, Except.bind, Except.map, pure,
            Except.pure]

theorem claim_C5_coupon_policy (env : Env) (response : AIResponse)
    (context : ConversationContext) (analysis : Analysis) (query : String)
    (pk : List LangGraphNode) (hp : response.coupons = none) :
    (¬(analysis.intent = "purchase_intent" ∧ analysis.purchaseReadiness = "ready_to_buy") →
      (enhanceResponse env response context analysis query pk).coupons = none) ∧
    (∀ cs c, (enhanceResponse env response context analysis query pk).coupons = some cs →
      c ∈ cs →
      analysis.intent = "purchase_intent" ∧ analysis.purchaseReadiness = "ready_to_buy" ∧
      (∃ elig : Eligibility, env.checkCouponEligibility = .ok elig ∧ elig.eligible = true) ∧
      c.discountType = "percentage" ∧ c.amount ≤ 15 ∧ c.validityDays = some 7) := by
  constructor
  · intro hn
    rcases enhance_coupons_shape env response context analysis query pk with h | ⟨hcond, _⟩
    · rw [h, hp]
    · exact absurd hcond hn
  · intro cs c hcs hmem
    rcases enhance_coupons_shape env response context analysis query pk with h | ⟨hcond, h⟩
    · rw [hcs, hp] at h
      exact absurd h (by simp)
    · rw [hcs] at h
      injection h with h2
      subst h2
      rcases generateCouponIfEligible_shape env context analysis with hg | ⟨elig, hce, he, hg⟩
      · rw [hg] at hmem
        exact absurd hmem (by simp)
      · rw [hg] at hmem
        have hcc : c = ⟨"percentage", jsMin elig.maxDiscount 15, some 7⟩ := by
          simpa using hmem
        subst hcc
        exact ⟨hcond.1, hcond.2, ⟨elig, hce, he⟩, rfl, jsMin_le_right _ _, rfl⟩

def c5Env : Env :=
  { checkCouponEligibility := .ok ⟨true, 20⟩, issueCoupon := fun _ => .ok true }

def c5Analysis : Analysis :=
  { intent := "purchase_intent", sentiment := 0, confidence := 1/2, entities := {},
    urgency := "medium", purchaseReadiness := "ready_to_buy" }

def c5Coupon : Coupon := ⟨"percentage", jsMin 20 15, some 7⟩

theorem claim_C5_coupon_policy_witness :
    c5Coupon.discountType = "percentage" ∧ c5Coupon.amount ≤ 15 ∧
      c5Coupon.validityDays = some 7 :=
  ⟨((claim_C5_coupon_policy c5Env capResponse capContext c5Analysis "hello" [] rfl).2
      [c5Coupon] c5Coupon (by rfl) (by simp)).2.2.2.1,
   ((claim_C5_coupon_policy c5Env capResponse capContext c5Analysis "hello" [] rfl).2
      [c5Coupon] c5Coupon (by rfl) (by simp)).2.2.2.2.1,
   ((claim_C5_coupon_policy c5Env capResponse capContext c5Analysis "hello" [] rfl).2
      [c5Coupon] c5Coupon (by rfl) (by simp)).2.2.2.2.2⟩

/-! ## Theorems: retriever catalog fallback (C7) -/

/-- C7: on the cache-miss path, when the text search returns zero results,
`getProductKnowledge` returns the full published catalog as nodes — one
product node per catalog product plus one category node per distinct
category — and returns `[]` exactly when the published catalog is empty. -/
theorem claim_C7_retriever_catalog_fallback (env : Env) (query : String)
    (pubs : List Product)
    (hmiss : env.cachedKnowledge = none)
    (hall : isRequestingAllProducts query = false)
    (hsearch : env.searchProducts query {} = .ok [])
    (hsite : env.findBySite = .ok pubs) :
    getProductKnowledge env query = buildNodes pubs ∧
    (getProductKnowledge env query).length =
      pubs.length +
        (dedupFirst (pubs.flatMap (fun p => p.categories.map (fun c => c.name)))).length ∧
    (getProductKnowledge env query = [] ↔ pubs = []) := by
  have hmain : getProductKnowledge env query = buildNodes pubs := by
    simp [getProductKnowledge, getProductKnowledgeE, hmiss, hall, hsearch, hsite, bind,
      Except.bind, pure, Except.pure]
  refine ⟨hmain, ?_, ?_⟩
  · rw [hmain]
    simp [buildNodes]
  · rw [hmain]
    constructor
    · intro h
      cases pubs with
      | nil => rfl
      | cons p ps => simp [buildNodes] at h
    · intro h
      subst h
      rfl

def c7Env : Env :=
  { searchProducts := fun _ _ => .ok [], findBySite := .ok [capProduct] }

theorem claim_C7_retriever_catalog_fallback_witness :
    getProductKnowledge c7Env "hello" = buildNodes [capProduct] ∧
    (getProductKnowledge c7Env "hello" = [] ↔ ([capProduct] : List Product) = []) :=
  ⟨(claim_C7_retriever_catalog_fallback c7Env "hello" [capProduct] rfl (by decide) rfl rfl).1,
   (claim_C7_retriever_catalog_fallback c7Env "hello" [capProduct] rfl (by decide) rfl rfl).2.2⟩

/-! ## Theorems: caller-supplied history vs cached transcript (C8) -/

def c8CachedContext : ConversationContext :=
  { sessionId := "s1", siteId := "site1",
    previousMessages := [{ type := "user", content := "earlier message" }] }

def c8Env : Env := { cachedContext := some c8CachedContext }

def c8Request : AIRequest :=
  { message := "hi", sessionId := "s1", siteId := "site1", contextPreviousMessages := some [] }

/-- Counterexample to C8 as stated: the claim says a caller-supplied
*empty* history leaves the cached transcript in place, but a supplied
empty array is truthy in JS, so the code overwrites the non-empty cached
transcript with `[]`. -/
theorem claim_C8_counterexample :
    (buildConversationContext c8Env c8Request).previousMessages = [] ∧
    c8CachedContext.previousMessages ≠ [] := by
  exact ⟨rfl, by simp [c8CachedContext]⟩

/-- C8 (amended): `buildConversationContext` overwrites the context's
`previousMessages` with the caller-supplied history exactly when the
request supplies a history field — even an empty one; only when the
request supplies no history is the cached transcript left in place. -/
theorem claim_C8_amended_history_overwrite (env : Env) (request : AIRequest)
    (ctx : ConversationContext) (hc : env.cachedContext = some ctx) :
    (buildConversationContext env request).previousMessages =
      (match request.contextPreviousMessages with
       | some h => h
       | none => ctx.previousMessages) := by
  unfold buildConversationContext
  rw [hc]
  cases request.contextPreviousMessages <;> rfl

theorem claim_C8_amended_history_overwrite_witness :
    (buildConversationContext c8Env c8Request).previousMessages = [] :=
  claim_C8_amended_history_overwrite c8Env c8Request c8CachedContext rfl

/-! ## Theorems: text-pattern coupon bypass (C10) -/

/-- C10: in text-pattern (Claude) mode, whenever the reply text matches
`/generate[_\s]coupon|discount|offer/i`, `parseFunctionCallsFromContent`
requests issuance at a fixed 10% percentage discount: if the issuer
issues, a `generate_coupon` action with amount 10 is emitted — without
consulting the eligibility check (the result is identical for every
eligibility value, and the amount is the constant 10, not derived from
any `maxDiscount`). -/
theorem claim_C10_text_mode_coupon (env : Env) (context : ConversationContext)
    (content : String)
    (hpat : couponTriggerPat content = true)
    (hiss : env.issueCoupon ⟨"percentage", 10, none⟩ = .ok true) :
    RespAction.generate_coupon ⟨"percentage", 10, none⟩ ∈
      parseFunctionCallsFromContent env context content ∧
    (∀ elig, parseFunctionCallsFromContent { env with checkCouponEligibility := elig }
        context content = parseFunctionCallsFromContent env context content) := by
  constructor
  · unfold parseFunctionCallsFromContent
    rw [if_pos hpat]
    unfold generateCouponForSession
    rw [hiss]
    simp [Except.map, List.mem_append]
  · intro elig
    rfl

def c10Env : Env :=
  { checkCouponEligibility := .ok ⟨false, 0⟩, issueCoupon := fun _ => .ok true }

theorem claim_C10_text_mode_coupon_witness :
    RespAction.generate_coupon ⟨"percentage", 10, none⟩ ∈
      parseFunctionCallsFromContent c10Env capContext "Here is a special discount for you" :=
  (claim_C10_text_mode_coupon c10Env capContext "Here is a special discount for you"
    (by decide) rfl).1

/-! ## Theorems: top-level error boundary (C1) -/

/-- `enhanceResponse` never changes the message field. -/
theorem enhance_message_eq (env : Env) (response : AIResponse)
    (context : ConversationContext) (analysis : Analysis) (query : String)
    (pk : List LangGraphNode) :
    (enhanceResponse env response context analysis query pk).message = response.message := by
  unfold enhanceResponse
  cases henh : enhanceResponseE env response context analysis query pk with
  | error e => rfl
  | ok r =>
    simp only [enhanceResponseE, bind, Except.bind, pure, Except.pure] at henh
    split at henh
    · split at henh
      · exact absurd henh (by simp)
      · injection henh with hr
        subst hr
        rfl
    · split at henh
      · split at henh
        · split at henh
          · exact absurd henh (by simp)
          · rename_i x v heq
            rcases eq_or_ne v [] with hv | hv
            · rw [if_pos hv] at henh
              split at henh <;> split at henh <;>
                injection henh with hr <;> subst hr <;> rfl
            · rw [if_neg hv] at henh
              split at henh <;> split at henh <;>
                injection henh with hr <;> subst hr <;> rfl
        · simp only [if_true] at henh
          split at henh <;> split at henh <;>
            injection henh with hr <;> subst hr <;> rfl
      · split at henh <;> injection henh with hr <;> subst hr <;> rfl

theorem jsStrOr_ne_empty (o : Option String) (d : String) (hd : d ≠ "") :
    jsStrOr o d ≠ "" := by
  unfold jsStrOr
  cases o with
  | none => exact hd
  | some s =>
    by_cases hs : s = ""
    · simp [hs, hd]
    · simp [hs]

/-- C1: `processMessage` is a total function (it returns exactly one
response and never raises), its message field is never empty, and on any
uncaught pipeline failure it returns the fallback response: a message
from the fixed non-empty pool, intent `"unknown"`, confidence 0.1,
sentiment 0, no actions, and fallback metadata carrying the causing
error's message. -/
theorem claim_C1_error_boundary (env : Env) (request : AIRequest) :
    (processMessage env request).message ≠ "" ∧
    (∀ m ∈ fallbackMessages, m ≠ "") ∧
    (∀ e, processMessageE env request = .error e →
      processMessage env request =
        { message := fallbackMessages.get (Fin.cast (by rfl) env.randomIndex)
          intent := "unknown"
          confidence := 1/10
          sentiment := 0
          actions := []
          metadata := { fallback := true, error := some e } } ∧
      (processMessage env request).message ∈ fallbackMessages) := by
  refine ⟨?_, by decide, ?_⟩
  · cases hcomp : env.completion with
    | error e =>
      have hfb : processMessage env request = getFallbackResponse env request e := by
        simp [processMessage, processMessageE, generateAIResponse, hcomp, bind, Except.bind]
      rw [hfb]
      have hne : ∀ i : Fin 4, fallbackMessages.get (Fin.cast (by rfl) i) ≠ "" := by decide
      exact hne env.randomIndex
    | ok c =>
      have hmsg : (processMessage env request).message =
          jsStrOr c.content generatedMessageDefault := by
        simp [processMessage, processMessageE, generateAIResponse, hcomp, bind, Except.bind,
          pure, Except.pure, enhance_message_eq]
      rw [hmsg]
      exact jsStrOr_ne_empty _ _ (by decide)
  · intro e herr
    have hfb : processMessage env request = getFallbackResponse env request e := by
      simp [processMessage, herr]
    constructor
    · rw [hfb]
      rfl
    · rw [hfb]
      exact List.get_mem _ _ _

def c1Env : Env := { completion := .error "provider unreachable", randomIndex := 2 }

def c1Request : AIRequest := { message := "hi", sessionId := "s1", siteId := "site1" }

theorem claim_C1_error_boundary_witness :
    (processMessage c1Env c1Request).message ≠ "" ∧
    processMessage c1Env c1Request =
      { message := fallbackMessages.get (Fin.cast (by rfl) c1Env.randomIndex)
        intent := "unknown"
        confidence := 1/10
        sentiment := 0
        actions := []
        metadata := { fallback := true, error := some "provider unreachable" } } :=
  ⟨(claim_C1_error_boundary c1Env c1Request).1,
   ((claim_C1_error_boundary c1Env c1Request).2.2 "provider unreachable" (by rfl)).1⟩

theorem claim_C6_classifier_fallback_witness :
    inferIntentFromKeywords "zzz qqq" = "unknown" ∧
    (-1 ≤ calculateSimpleSentiment "zzz qqq" ∧ calculateSimpleSentiment "zzz qqq" ≤ 1) :=
  ⟨claim_C6_classifier_fallback.2.2.2.2.1 "zzz qqq" (by decide),
   claim_C6_classifier_fallback.2.2.2.1 "zzz qqq"⟩
